import Mathlib

/-!
Verification of the elscan ECHONET Lite frame codec and response
interpreters.  The definitions below are shallow embeddings of the Rust
source (src/packet.rs and src/response.rs): byte values are modelled as
natural numbers (inputs are lists of values below 256), wrapping `u8`
arithmetic is modelled with an explicit `% 256`, and fallible code is
modelled with `Except`/`Option`.  A Rust index-out-of-bounds panic is
modelled by a dedicated error value (`RespErr.indexPanic`) so that panics
stay distinguishable from ordinary error returns.
-/

namespace Elscan

/-- ECHONET Lite object specifier: exactly three bytes
(class-group code, class code, instance code).  Embeds `EOJ` from
src/packet.rs. -/
structure EOJ where
  b0 : Nat
  b1 : Nat
  b2 : Nat
deriving DecidableEq

/-- The controller object specifier (0x05, 0xFF, 0x01). -/
def controller : EOJ := ⟨0x05, 0xFF, 0x01⟩

/-- The node-profile object specifier (0x0E, 0xF0, 0x01). -/
def nodeProfile : EOJ := ⟨0x0E, 0xF0, 0x01⟩

/-- ECHONET Lite service codes, the closed 16-value enumeration `ESV`
from src/packet.rs. -/
inductive ESV where
  | setI
  | setC
  | get
  | infReq
  | setGet
  | setRes
  | getRes
  | inf
  | infC
  | infCRes
  | setGetRes
  | setISNA
  | setCSNA
  | getSNA
  | infSNA
  | setGetSNA
deriving DecidableEq

/-- Wire byte of each service code (the patterns of
`ESV::try_from` in src/packet.rs, read in reverse). -/
def ESV.toByte : ESV → Nat
  | .setI => 0x60
  | .setC => 0x61
  | .get => 0x62
  | .infReq => 0x63
  | .setGet => 0x6E
  | .setRes => 0x71
  | .getRes => 0x72
  | .inf => 0x73
  | .infC => 0x74
  | .infCRes => 0x7A
  | .setGetRes => 0x7E
  | .setISNA => 0x50
  | .setCSNA => 0x51
  | .getSNA => 0x52
  | .infSNA => 0x53
  | .setGetSNA => 0x5E

/-- `ESV::try_from` from src/packet.rs: maps a byte to a service code,
`none` for the `invalid ESV` bail. -/
def ESV.fromByte : Nat → Option ESV
  | 0x60 => some .setI
  | 0x61 => some .setC
  | 0x62 => some .get
  | 0x63 => some .infReq
  | 0x6E => some .setGet
  | 0x71 => some .setRes
  | 0x72 => some .getRes
  | 0x73 => some .inf
  | 0x74 => some .infC
  | 0x7A => some .infCRes
  | 0x7E => some .setGetRes
  | 0x50 => some .setISNA
  | 0x51 => some .setCSNA
  | 0x52 => some .getSNA
  | 0x53 => some .infSNA
  | 0x5E => some .setGetSNA
  | _ => none

/-- One ECHONET Lite property: `Prop` from src/packet.rs
(`Prop` itself is a reserved word in Lean, hence the `El` prefix). -/
structure ElProp where
  epc : Nat
  pdc : Nat
  edt : List Nat
deriving DecidableEq

/-- A decoded frame: `Packet` from src/packet.rs. -/
structure Packet where
  tid : Nat
  seoj : EOJ
  deoj : EOJ
  esv : ESV
  opc : Nat
  props : List ElProp
deriving DecidableEq

/-- `Packet::is_normal_response` from src/packet.rs. -/
def Packet.isNormalResponse (p : Packet) : Bool :=
  match p.esv with
  | .setRes | .getRes | .setGetRes => true
  | _ => false

/-- `Packet::get_prop` from src/packet.rs: first property whose
identifier equals `epc`. -/
def Packet.getProp (p : Packet) (epc : Nat) : Option ElProp :=
  p.props.find? (fun pr => pr.epc == epc)

/-- Decode failures of `Packet::try_from` in src/packet.rs, keyed by
its four distinct bail sites (`invalid packet`, `invalid EHD1` /
`invalid EHD2`, `invalid ESV`, `invalid property data`). -/
inductive FrameError where
  | tooShort
  | invalidHeader
  | invalidServiceCode
  | propertyTruncated
deriving DecidableEq

/-- The property-reading loop of `Packet::try_from` in src/packet.rs:
iterate exactly `n` times, each time reading an identifier byte, a
length byte (bailing when fewer than two bytes remain) and then that
many data bytes (bailing when fewer remain than declared). -/
def readProps : Nat → List Nat → Except FrameError (List ElProp)
  | 0, _ => .ok []
  | Nat.succ n, epc :: pdc :: rest =>
    if rest.length < pdc then .error .propertyTruncated
    else
      match readProps n (rest.drop pdc) with
      | .ok ps => .ok (⟨epc, pdc, rest.take pdc⟩ :: ps)
      | .error e => .error e
  | Nat.succ _, _ => .error .propertyTruncated

/-- `Packet::try_from` from src/packet.rs.  The twelve-element pattern
is exactly the `remaining() < 12` check (the source bails before
inspecting any byte, so checking the shape first is equivalent); then
the two header magic bytes 0x10/0x81, the big-endian transaction id,
the two raw 3-byte specifiers, the service code and the property
count, followed by the property loop.  Trailing bytes beyond the last
declared property are ignored. -/
def Packet.tryFrom (l : List Nat) : Except FrameError Packet :=
  match l with
  | e1 :: e2 :: t1 :: t2 :: s0 :: s1 :: s2 :: d0 :: d1 :: d2 :: ev :: op :: rest =>
    if e1 = 0x10 then
      if e2 = 0x81 then
        match ESV.fromByte ev with
        | some esv =>
          match readProps op rest with
          | .ok props => .ok ⟨t1 * 256 + t2, ⟨s0, s1, s2⟩, ⟨d0, d1, d2⟩, esv, op, props⟩
          | .error e => .error e
        | none => .error .invalidServiceCode
      else .error .invalidHeader
    else .error .invalidHeader
  | _ => .error .tooShort

/-- Wire bytes of one property: identifier, length byte, then the data
bytes.  Part of the frame encoder (see `encode`). -/
def encodeProp (pr : ElProp) : List Nat :=
  pr.epc :: pr.pdc :: pr.edt

/-- Wire bytes of a property sequence, in order. -/
def encodeProps : List ElProp → List Nat
  | [] => []
  | pr :: ps => encodeProp pr ++ encodeProps ps

/-- Modelled from the spec: the frame encoder (`Packet::to_bytes`, which
main.rs calls but which is absent from the supplied src/).  Per the wire
format of the spec: the two magic bytes, the big-endian 16-bit
transaction id, source and destination specifiers, service-code byte,
property-count byte, then each property as identifier, length and data
bytes. -/
def encode (p : Packet) : List Nat :=
  0x10 :: 0x81 :: (p.tid / 256) :: (p.tid % 256) ::
    p.seoj.b0 :: p.seoj.b1 :: p.seoj.b2 ::
    p.deoj.b0 :: p.deoj.b1 :: p.deoj.b2 ::
    p.esv.toByte :: p.opc :: encodeProps p.props

/-- A wire-valid (syntactically valid) object specifier: three bytes. -/
def EOJ.WF (e : EOJ) : Prop :=
  e.b0 < 256 ∧ e.b1 < 256 ∧ e.b2 < 256

instance : DecidablePred EOJ.WF := fun _ => by
  unfold EOJ.WF; infer_instance

/-- A wire-valid property: its declared length byte equals the payload
length, and every byte fits in one octet. -/
def ElProp.WF (pr : ElProp) : Prop :=
  pr.epc < 256 ∧ pr.pdc = pr.edt.length ∧ pr.pdc < 256 ∧ ∀ b ∈ pr.edt, b < 256

instance : DecidablePred ElProp.WF := fun _ => by
  unfold ElProp.WF; infer_instance

/-- A syntactically valid frame: every field fits its wire width, the
explicit property count equals the number of properties, and every
property is wire-valid. -/
def Packet.WF (p : Packet) : Prop :=
  p.tid < 65536 ∧ p.seoj.WF ∧ p.deoj.WF ∧ p.opc = p.props.length ∧ p.opc < 256 ∧
    ∀ pr ∈ p.props, pr.WF

instance : DecidablePred Packet.WF := fun _ => by
  unfold Packet.WF; infer_instance

/-- Failures of the response interpreters in src/response.rs.
`indexPanic` models a Rust index-out-of-bounds panic (an actual crash
in the source, kept distinct from returned errors). -/
inductive RespErr where
  | notAResponse
  | invalidDEOJ
  | invalidSEOJ
  | missingProperty (epc : Nat)
  | invalidInstanceList
  | indexPanic
deriving DecidableEq

/-- One row of the bitmap form of `parse_property_map` in
src/response.rs: for byte `b` at byte index `i`, emit, for each set bit
`j` in ascending order, the identifier `(0x80 + 0x10*j + i) % 256`
(the source computes `(0x80 + 0x10 * j as u8) + i as u8` in `u8`
arithmetic, which wraps modulo 256). -/
def bitmapRow (b i : Nat) : List Nat :=
  (List.range 8).filterMap fun j =>
    if b.testBit j then some ((0x80 + 0x10 * j + i) % 256) else none

/-- The bitmap loop of `parse_property_map` in src/response.rs: rows in
ascending byte position, starting at byte index `i`. -/
def bitmapAll : List Nat → Nat → List Nat
  | [], _ => []
  | b :: rest, i => bitmapRow b i ++ bitmapAll rest (i + 1)

/-- `parse_property_map` from src/response.rs.  On an empty payload the
source indexes `edt.0[0]` and panics; this is modelled as `none`.  With
a count byte below 16 the map is all remaining bytes verbatim; otherwise
the remaining bytes (however many there are — the source performs no
length check) are read as a bitmap. -/
def parse_property_map : List Nat → Option (List Nat)
  | [] => none
  | n :: rest => if n < 16 then some rest else some (bitmapAll rest 0)

/-- `DiscoveryResponse` from src/response.rs. -/
structure DiscoveryResponse where
  eoj : EOJ
  instances : List EOJ
deriving DecidableEq

/-- Standard version information: the `SVI` 4-byte wrapper from
src/response.rs. -/
structure SVI where
  b0 : Nat
  b1 : Nat
  b2 : Nat
  b3 : Nat
deriving DecidableEq

/-- `SyncResponse` from src/response.rs. -/
structure SyncResponse where
  eoj : EOJ
  svi : SVI
  anno_props : List Nat
  get_props : List Nat
  set_props : List Nat
deriving DecidableEq

/-- The instance-list chunking of `DiscoveryResponse::try_from` in
src/response.rs: `chunks(3)` over the bytes after the count byte, each
chunk converted through `EOJ::try_from`, which fails (`invalid EOJ`,
surfaced by the caller as the invalid-instance-list error) exactly on a
trailing chunk of fewer than three bytes. -/
def chunks3 : List Nat → Option (List EOJ)
  | [] => some []
  | a :: b :: c :: rest =>
    match chunks3 rest with
    | some l => some (⟨a, b, c⟩ :: l)
    | none => none
  | _ => none

/-- `DiscoveryResponse::try_from` from src/response.rs: requires a
normal-response service code, destination = controller, source =
node-profile and a property 0xD6; its payload's first byte (the
declared instance count) is read — panicking on an empty payload, the
count itself only sizing a capacity hint — and the remaining bytes are
chunked into specifiers. -/
def DiscoveryResponse.tryFrom (p : Packet) : Except RespErr DiscoveryResponse :=
  if p.isNormalResponse = false then .error .notAResponse
  else if p.deoj ≠ controller then .error .invalidDEOJ
  else if p.seoj ≠ nodeProfile then .error .invalidSEOJ
  else
    match p.getProp 0xD6 with
    | none => .error (.missingProperty 0xD6)
    | some pr =>
      match pr.edt with
      | [] => .error .indexPanic
      | _ :: rest =>
        match chunks3 rest with
        | some l => .ok ⟨p.seoj, l⟩
        | none => .error .invalidInstanceList

/-- `SyncResponse::try_from` from src/response.rs: requires a
normal-response service code, destination = controller (the source
specifier is never checked), and the four properties 0x82, 0x9D, 0x9F,
0x9E by identifier.  The version-info field is the first four bytes of
property 0x82's payload — the source indexes bytes 0..3 and panics when
fewer are present — and the three maps go through
`parse_property_map`, whose empty-payload panic is propagated. -/
def SyncResponse.tryFrom (p : Packet) : Except RespErr SyncResponse :=
  if p.isNormalResponse = false then .error .notAResponse
  else if p.deoj ≠ controller then .error .invalidDEOJ
  else
    match p.getProp 0x82 with
    | none => .error (.missingProperty 0x82)
    | some svi =>
      match p.getProp 0x9D with
      | none => .error (.missingProperty 0x9D)
      | some anno =>
        match p.getProp 0x9F with
        | none => .error (.missingProperty 0x9F)
        | some get =>
          match p.getProp 0x9E with
          | none => .error (.missingProperty 0x9E)
          | some set =>
            match svi.edt with
            | a :: b :: c :: d :: _ =>
              match parse_property_map anno.edt, parse_property_map get.edt,
                  parse_property_map set.edt with
              | some ap, some gp, some sp => .ok ⟨p.seoj, ⟨a, b, c, d⟩, ap, gp, sp⟩
              | _, _, _ => .error .indexPanic
            | _ => .error .indexPanic

/-! ## Helper lemmas -/

theorem ESV.fromByte_toByte (e : ESV) : ESV.fromByte e.toByte = some e := by
  cases e <;> rfl

theorem readProps_encodeProps (ps : List ElProp) (n : Nat) (suffix : List Nat)
    (h : ∀ pr ∈ ps, pr.pdc = pr.edt.length) :
    readProps (ps.length + n) (encodeProps ps ++ suffix) =
      (readProps n suffix).map (fun qs => ps ++ qs) := by
  induction ps with
  | nil =>
    simp only [List.length_nil, Nat.zero_add, encodeProps, List.nil_append]
    cases readProps n suffix <;> simp [Except.map]
  | cons pr ps ih =>
    have hpr : pr.pdc = pr.edt.length := h pr (by simp)
    have hps : ∀ q ∈ ps, q.pdc = q.edt.length := fun q hq => h q (by simp [hq])
    have hshape : encodeProps (pr :: ps) ++ suffix =
        pr.epc :: pr.pdc :: (pr.edt ++ (encodeProps ps ++ suffix)) := by
      simp [encodeProps, encodeProp]
    have hlen : (pr :: ps).length + n = (ps.length + n) + 1 := by
      simp only [List.length_cons]; omega
    rw [hshape, hlen, readProps]
    rw [if_neg (by rw [hpr]; simp only [List.length_append]; omega)]
    rw [hpr, List.take_left, List.drop_left, ← hpr, ih hps]
    cases readProps n suffix <;> simp [Except.map]

theorem readProps_append (n : Nat) :
    ∀ (rest extra : List Nat) (ps : List ElProp), readProps n rest = .ok ps →
      readProps n (rest ++ extra) = .ok ps := by
  induction n with
  | zero =>
    intro rest extra ps h
    simpa [readProps] using h
  | succ n ih =>
    intro rest extra ps h
    match rest with
    | [] => simp [readProps] at h
    | [a] => simp [readProps] at h
    | a :: b :: rest2 =>
      rw [readProps] at h
      by_cases hb : rest2.length < b
      · rw [if_pos hb] at h; cases h
      · rw [if_neg hb] at h
        have hble : b ≤ rest2.length := Nat.le_of_not_lt hb
        cases hrec : readProps n (rest2.drop b) with
        | error e => rw [hrec] at h; cases h
        | ok qs =>
          rw [hrec] at h
          cases h
          show readProps (n + 1) (a :: b :: (rest2 ++ extra)) = _
          rw [readProps]
          rw [if_neg (by simp only [List.length_append]; omega)]
          rw [List.take_append_of_le_length hble, List.drop_append_of_le_length hble]
          rw [ih (rest2.drop b) extra qs hrec]

theorem filterMap_ite {α β : Type} (p : α → Bool) (f : α → β) (l : List α) :
    l.filterMap (fun a => if p a then some (f a) else none) = (l.filter p).map f := by
  induction l with
  | nil => rfl
  | cons a l ih =>
    rw [List.filterMap_cons, List.filter_cons]
    cases h : p a <;> simp [h, ih]

theorem bitmapRow_filter (b i : Nat) :
    bitmapRow b i =
      ((List.range 8).filter fun j => b.testBit j).map
        fun j => (0x80 + 0x10 * j + i) % 256 := by
  rw [bitmapRow, filterMap_ite]

theorem bitmapAll_enumFrom :
    ∀ (rest : List Nat) (k : Nat),
      bitmapAll rest k = (List.enumFrom k rest).flatMap fun q => bitmapRow q.2 q.1 := by
  intro rest
  induction rest with
  | nil => intro k; rfl
  | cons b rest ih =>
    intro k
    rw [bitmapAll, List.enumFrom_cons, List.flatMap_cons, ih (k + 1)]

theorem parse_property_map_cons (b : Nat) (rest : List Nat) :
    ∃ l, parse_property_map (b :: rest) = some l := by
  rw [parse_property_map]
  split <;> exact ⟨_, rfl⟩

theorem tryFrom_cons (e1 e2 t1 t2 s0 s1 s2 d0 d1 d2 ev op : Nat) (rest : List Nat) :
    Packet.tryFrom (e1 :: e2 :: t1 :: t2 :: s0 :: s1 :: s2 :: d0 :: d1 :: d2 ::
        ev :: op :: rest) =
      if e1 = 0x10 then
        if e2 = 0x81 then
          match ESV.fromByte ev with
          | some esv =>
            match readProps op rest with
            | .ok props => .ok ⟨t1 * 256 + t2, ⟨s0, s1, s2⟩, ⟨d0, d1, d2⟩, esv, op, props⟩
            | .error e => .error e
          | none => .error .invalidServiceCode
        else .error .invalidHeader
      else .error .invalidHeader := rfl

/-! ## Claim theorems -/

/-- Claim C1: for every syntactically valid frame `p`, decoding the
byte sequence produced by the encoder yields `p` again:
`Packet.tryFrom (encode p) = .ok p`.  The encoder reproduces
byte-for-byte the serialization the decoder accepts. -/
theorem c1_encode_decode_roundtrip (p : Packet) (h : p.WF) :
    Packet.tryFrom (encode p) = .ok p := by
  obtain ⟨tid, ⟨s0, s1, s2⟩, ⟨d0, d1, d2⟩, esv, opc, props⟩ := p
  obtain ⟨htid, hs, hd, hopc, hopc256, hprops⟩ := h
  have hopc' : opc = props.length := hopc
  have hread : readProps opc (encodeProps props) = .ok props := by
    have h0 := readProps_encodeProps props 0 []
      (fun pr hpr => (hprops pr hpr).2.1)
    rw [List.append_nil, Nat.add_zero] at h0
    rw [hopc', h0]
    simp [readProps, Except.map]
  have htid' : tid / 256 * 256 + tid % 256 = tid := by omega
  simp only [encode]
  rw [tryFrom_cons, if_pos rfl, if_pos rfl, ESV.fromByte_toByte, hread, htid']

/-- Witness for C1: the round-trip law applied to the concrete Get
request of the source's own test suite. -/
theorem c1_encode_decode_roundtrip_witness :
    Packet.WF ⟨0xaa01, ⟨0x05, 0xFF, 0x01⟩, ⟨0x0E, 0xF0, 0x01⟩, .get, 2,
      [⟨0x82, 0, []⟩, ⟨0x83, 0, []⟩]⟩ ∧
    Packet.tryFrom (encode ⟨0xaa01, ⟨0x05, 0xFF, 0x01⟩, ⟨0x0E, 0xF0, 0x01⟩, .get, 2,
      [⟨0x82, 0, []⟩, ⟨0x83, 0, []⟩]⟩) =
      .ok ⟨0xaa01, ⟨0x05, 0xFF, 0x01⟩, ⟨0x0E, 0xF0, 0x01⟩, .get, 2,
        [⟨0x82, 0, []⟩, ⟨0x83, 0, []⟩]⟩ :=
  ⟨by decide, c1_encode_decode_roundtrip _ (by decide)⟩

/-- Counterexample to claim C2 as stated: with 17 bytes following the
count byte, the set bit `j = 7` of byte index `i = 16` produces the
identifier `(0x80 + 0x10*7 + 16) % 256 = 0`, not the claimed
`0x80 + 0x10*7 + 16 = 0x100` (the source computes the identifier in
wrapping 8-bit arithmetic). -/
theorem c2_bitmap_overflow_counterexample :
    parse_property_map
        [0x10, 0, 0, 0, 0, 0, 0, 0, 0, 0, 0, 0, 0, 0, 0, 0, 0, 0x80] =
      some [0x00] ∧
    (0x80 + 0x10 * 7 + 16 : Nat) ≠ 0x00 := by
  exact ⟨by decide, by decide⟩

/-- Claim C2, amended: in the bitmap form (count byte at least 16) a
set bit at byte index `i` and bit index `j` produces the identifier
`(0x80 + 0x10*j + i) % 256` — which equals the claimed
`0x80 + 0x10*j + i` whenever `i ≤ 15`, i.e. whenever at most 16 bytes
follow the count byte — and the output enumerates identifiers by
ascending byte position, then ascending bit position; the concrete
input of the claim yields exactly the claimed identifier list. -/
theorem c2_bitmap_amended :
    (∀ (n : Nat) (rest : List Nat), 16 ≤ n →
      parse_property_map (n :: rest) =
        some (rest.enum.flatMap fun q =>
          ((List.range 8).filter fun j => q.2.testBit j).map
            fun j => (0x80 + 0x10 * j + q.1) % 256)) ∧
    (∀ i j : Nat, i ≤ 15 → j ≤ 7 → (0x80 + 0x10 * j + i) % 256 = 0x80 + 0x10 * j + i) ∧
    parse_property_map
        [0x12, 0x0D, 0x01, 0x01, 0x0F, 0x00, 0x00, 0x00, 0x00, 0x01, 0x01, 0x01,
          0x08, 0x00, 0x02, 0x0A, 0x03] =
      some [0x80, 0xA0, 0xB0, 0x81, 0x82, 0x83, 0x93, 0xA3, 0xB3, 0x88, 0x89, 0x8A,
        0xBB, 0x9D, 0x9E, 0xBE, 0x8F, 0x9F] := by
  refine ⟨?_, ?_, by decide⟩
  · intro n rest h16
    rw [parse_property_map, if_neg (by omega), bitmapAll_enumFrom rest 0]
    simp only [List.enum, bitmapRow_filter]
  · intro i j hi hj
    exact Nat.mod_eq_of_lt (by omega)

/-- Witness for C2 (amended): the bitmap characterization applied at a
concrete one-byte bitmap, and the no-wrap bound at `i = 15`, `j = 7`. -/
theorem c2_bitmap_amended_witness :
    parse_property_map [0x12, 0x0D] =
      some ((List.enum [0x0D]).flatMap fun q =>
        ((List.range 8).filter fun j => q.2.testBit j).map
          fun j => (0x80 + 0x10 * j + q.1) % 256) ∧
    (0x80 + 0x10 * 7 + 15 : Nat) % 256 = 0x80 + 0x10 * 7 + 15 :=
  ⟨c2_bitmap_amended.1 0x12 [0x0D] (by decide),
   c2_bitmap_amended.2.1 15 7 (by decide) (by decide)⟩

/-- Claim C3: frame decode fails with the too-short error on buffers of
fewer than 12 bytes; with the invalid-header error when the first or
second byte differs from the magic constants 0x10/0x81; with the
invalid-service-code error when the service-code byte is outside the 16
valid values; and with the property-truncated error when a property
reached by the loop declares a length exceeding the bytes remaining in
the buffer. -/
theorem c3_decode_rejects :
    (∀ l : List Nat, l.length < 12 → Packet.tryFrom l = .error .tooShort) ∧
    (∀ e1 e2 t1 t2 s0 s1 s2 d0 d1 d2 ev op : Nat, ∀ rest : List Nat,
      e1 ≠ 0x10 ∨ e2 ≠ 0x81 →
      Packet.tryFrom (e1 :: e2 :: t1 :: t2 :: s0 :: s1 :: s2 :: d0 :: d1 :: d2 ::
          ev :: op :: rest) = .error .invalidHeader) ∧
    (∀ t1 t2 s0 s1 s2 d0 d1 d2 ev op : Nat, ∀ rest : List Nat,
      ESV.fromByte ev = none →
      Packet.tryFrom (0x10 :: 0x81 :: t1 :: t2 :: s0 :: s1 :: s2 :: d0 :: d1 :: d2 ::
          ev :: op :: rest) = .error .invalidServiceCode) ∧
    (∀ t1 t2 s0 s1 s2 d0 d1 d2 ev : Nat, ∀ esv : ESV, ∀ ps : List ElProp,
      ∀ n epc pdc : Nat, ∀ data : List Nat,
      ESV.fromByte ev = some esv →
      (∀ pr ∈ ps, pr.pdc = pr.edt.length) →
      data.length < pdc →
      Packet.tryFrom (0x10 :: 0x81 :: t1 :: t2 :: s0 :: s1 :: s2 :: d0 :: d1 :: d2 ::
          ev :: (ps.length + (n + 1)) :: (encodeProps ps ++ epc :: pdc :: data)) =
        .error .propertyTruncated) := by
  refine ⟨?_, ?_, ?_, ?_⟩
  · intro l hlen
    rcases l with _ | ⟨a1, l⟩; · rfl
    rcases l with _ | ⟨a2, l⟩; · rfl
    rcases l with _ | ⟨a3, l⟩; · rfl
    rcases l with _ | ⟨a4, l⟩; · rfl
    rcases l with _ | ⟨a5, l⟩; · rfl
    rcases l with _ | ⟨a6, l⟩; · rfl
    rcases l with _ | ⟨a7, l⟩; · rfl
    rcases l with _ | ⟨a8, l⟩; · rfl
    rcases l with _ | ⟨a9, l⟩; · rfl
    rcases l with _ | ⟨a10, l⟩; · rfl
    rcases l with _ | ⟨a11, l⟩; · rfl
    rcases l with _ | ⟨a12, l⟩; · rfl
    exfalso
    simp only [List.length_cons] at hlen
    omega
  · intro e1 e2 t1 t2 s0 s1 s2 d0 d1 d2 ev op rest hne
    rw [tryFrom_cons]
    rcases hne with h1 | h2
    · rw [if_neg h1]
    · by_cases h1 : e1 = 0x10
      · rw [if_pos h1, if_neg h2]
      · rw [if_neg h1]
  · intro t1 t2 s0 s1 s2 d0 d1 d2 ev op rest hev
    rw [tryFrom_cons, if_pos rfl, if_pos rfl, hev]
  · intro t1 t2 s0 s1 s2 d0 d1 d2 ev esv ps n epc pdc data hev hwf hlen
    have htr : readProps (n + 1) (epc :: pdc :: data) = .error .propertyTruncated := by
      rw [readProps, if_pos hlen]
    rw [tryFrom_cons, if_pos rfl, if_pos rfl, hev,
      readProps_encodeProps ps (n + 1) _ hwf, htr]
    rfl

/-- Witness for C3: each rejection case at a concrete buffer. -/
theorem c3_decode_rejects_witness :
    Packet.tryFrom [0x10, 0x81, 0xaa] = .error .tooShort ∧
    Packet.tryFrom [0x11, 0x81, 0, 0, 0, 0, 0, 0, 0, 0, 0x62, 0] = .error .invalidHeader ∧
    Packet.tryFrom [0x10, 0x81, 0, 0, 0, 0, 0, 0, 0, 0, 0x64, 0] =
      .error .invalidServiceCode ∧
    Packet.tryFrom [0x10, 0x81, 0, 0, 0, 0, 0, 0, 0, 0, 0x62, 1, 0x80, 5, 1, 2] =
      .error .propertyTruncated :=
  ⟨c3_decode_rejects.1 _ (by decide),
   c3_decode_rejects.2.1 0x11 0x81 0 0 0 0 0 0 0 0 0x62 0 [] (Or.inl (by decide)),
   c3_decode_rejects.2.2.1 0 0 0 0 0 0 0 0 0x64 0 [] rfl,
   c3_decode_rejects.2.2.2 0 0 0 0 0 0 0 0 0x62 ESV.get [] 0 0x80 5 [1, 2] rfl
     (fun pr hpr => absurd hpr (List.not_mem_nil pr)) (by decide)⟩

/-- Claim C4 names a code bug: the property-map decoder performs no
length validation at all.  On an empty payload the source indexes
`edt.0[0]` and panics — a crash, modelled here as `none`, not the error
return the claim requires — and in the bitmap form it does not fail
when fewer than 16 bytes follow the count byte: on `[0x10]` (declared
cardinality 16, nothing following) it silently succeeds with the empty
map. -/
theorem c4_property_map_missing_validation :
    parse_property_map [] = none ∧ parse_property_map [0x10] = some [] :=
  ⟨rfl, rfl⟩

/-- Claim C5 names a code bug: on a frame passing all Sync Response
property-presence checks whose 0x82 payload has fewer than 4 bytes, the
source indexes `svi.edt.0[0] .. [3]` and panics (modelled as the
index-panic error) instead of failing with the malformed-property
error the claim requires. -/
theorem c5_short_version_info_panics :
    SyncResponse.tryFrom ⟨1, ⟨0x01, 0x30, 0x01⟩, controller, .getRes, 4,
        [⟨0x82, 1, [0x00]⟩, ⟨0x9D, 1, [0x00]⟩, ⟨0x9F, 1, [0x00]⟩, ⟨0x9E, 1, [0x00]⟩]⟩ =
      .error .indexPanic :=
  rfl

/-- Counterexample to claim C6 as stated: a frame meeting every listed
Discovery Response precondition (normal-response code, controller
destination, node-profile source, property 0xD6 present) whose 0xD6
payload is empty.  The claim then predicts success with an empty
instance list (no trailing short chunk exists), but the source indexes
the payload's first byte and panics — neither a result nor the
invalid-instance-list failure. -/
theorem c6_empty_instance_list_counterexample :
    DiscoveryResponse.tryFrom ⟨1, nodeProfile, controller, .getRes, 1, [⟨0xD6, 0, []⟩]⟩ =
        .error .indexPanic ∧
      DiscoveryResponse.tryFrom ⟨1, nodeProfile, controller, .getRes, 1, [⟨0xD6, 0, []⟩]⟩ ≠
        .error .invalidInstanceList := by
  refine ⟨rfl, ?_⟩
  intro hcontra
  have h1 : DiscoveryResponse.tryFrom
      ⟨1, nodeProfile, controller, .getRes, 1, [⟨0xD6, 0, []⟩]⟩ = .error .indexPanic := rfl
  rw [h1] at hcontra
  exact RespErr.noConfusion (Except.error.inj hcontra)

/-- Claim C6, amended with the payload precondition the source relies
on (the 0xD6 data is non-empty): for every frame meeting the Discovery
Response preconditions, the instances are the consecutive 3-byte chunks
of the 0xD6 data after its first byte, decoded in order; the first byte
does not bound or affect the parsing; a trailing chunk shorter than 3
bytes makes interpretation fail with the invalid-instance-list error;
and the concrete 0xD6 payload of the claim yields the claimed two
instances. -/
theorem c6_instance_list_amended :
    (∀ (p : Packet) (pr : ElProp) (b0 : Nat) (rest : List Nat) (l : List EOJ),
      p.isNormalResponse = true → p.deoj = controller → p.seoj = nodeProfile →
      p.getProp 0xD6 = some pr → pr.edt = b0 :: rest → chunks3 rest = some l →
      DiscoveryResponse.tryFrom p = .ok ⟨p.seoj, l⟩) ∧
    (∀ (p : Packet) (pr : ElProp) (b0 : Nat) (rest : List Nat),
      p.isNormalResponse = true → p.deoj = controller → p.seoj = nodeProfile →
      p.getProp 0xD6 = some pr → pr.edt = b0 :: rest → chunks3 rest = none →
      DiscoveryResponse.tryFrom p = .error .invalidInstanceList) ∧
    (∀ (a b c : Nat) (rest : List Nat) (l : List EOJ), chunks3 rest = some l →
      chunks3 (a :: b :: c :: rest) = some (⟨a, b, c⟩ :: l)) ∧
    (∀ a : Nat, chunks3 [a] = none) ∧
    (∀ a b : Nat, chunks3 [a, b] = none) ∧
    DiscoveryResponse.tryFrom ⟨1, nodeProfile, controller, .getRes, 1,
        [⟨0xD6, 7, [0x02, 0x01, 0x30, 0x01, 0x02, 0x7B, 0x01]⟩]⟩ =
      .ok ⟨nodeProfile, [⟨0x01, 0x30, 0x01⟩, ⟨0x02, 0x7B, 0x01⟩]⟩ := by
  refine ⟨?_, ?_, ?_, fun a => rfl, fun a b => rfl, rfl⟩
  · intro p pr b0 rest l h1 h2 h3 h4 h5 h6
    simp [DiscoveryResponse.tryFrom, h1, h2, h3, h4, h5, h6]
  · intro p pr b0 rest h1 h2 h3 h4 h5 h6
    simp [DiscoveryResponse.tryFrom, h1, h2, h3, h4, h5, h6]
  · intro a b c rest l h
    simp [chunks3, h]

/-- Witness for C6 (amended): each part at a concrete input. -/
theorem c6_instance_list_amended_witness :
    DiscoveryResponse.tryFrom ⟨1, nodeProfile, controller, .getRes, 1,
        [⟨0xD6, 4, [0x00, 0x01, 0x30, 0x01]⟩]⟩ = .ok ⟨nodeProfile, [⟨0x01, 0x30, 0x01⟩]⟩ ∧
    DiscoveryResponse.tryFrom ⟨1, nodeProfile, controller, .getRes, 1,
        [⟨0xD6, 3, [0x01, 0x01, 0x30]⟩]⟩ = .error .invalidInstanceList ∧
    chunks3 [1, 2, 3] = some [⟨1, 2, 3⟩] ∧
    chunks3 [9] = none ∧
    chunks3 [9, 8] = none :=
  ⟨c6_instance_list_amended.1 ⟨1, nodeProfile, controller, .getRes, 1,
      [⟨0xD6, 4, [0x00, 0x01, 0x30, 0x01]⟩]⟩ ⟨0xD6, 4, [0x00, 0x01, 0x30, 0x01]⟩
      0x00 [0x01, 0x30, 0x01] [⟨0x01, 0x30, 0x01⟩] rfl rfl rfl rfl rfl rfl,
   c6_instance_list_amended.2.1 ⟨1, nodeProfile, controller, .getRes, 1,
      [⟨0xD6, 3, [0x01, 0x01, 0x30]⟩]⟩ ⟨0xD6, 3, [0x01, 0x01, 0x30]⟩
      0x01 [0x01, 0x30] rfl rfl rfl rfl rfl rfl,
   c6_instance_list_amended.2.2.1 1 2 3 [] [] rfl,
   c6_instance_list_amended.2.2.2.1 9,
   c6_instance_list_amended.2.2.2.2.1 9 8⟩

/-- Claim C7: a frame whose service code is not one of the three
normal-response variants fails both interpreters with the
not-a-response error, regardless of addressing or properties. -/
theorem c7_not_a_response (p : Packet)
    (h1 : p.esv ≠ .setRes) (h2 : p.esv ≠ .getRes) (h3 : p.esv ≠ .setGetRes) :
    DiscoveryResponse.tryFrom p = .error .notAResponse ∧
      SyncResponse.tryFrom p = .error .notAResponse := by
  have hn : p.isNormalResponse = false := by
    rcases p with ⟨tid, seoj, deoj, esv, opc, props⟩
    cases esv <;> first | rfl | exact absurd rfl (by assumption)
  constructor
  · rw [DiscoveryResponse.tryFrom, if_pos hn]
  · rw [SyncResponse.tryFrom, if_pos hn]

/-- Witness for C7 at a concrete Get-request frame with
discovery-shaped addressing and properties. -/
theorem c7_not_a_response_witness :
    DiscoveryResponse.tryFrom ⟨1, nodeProfile, controller, .get, 1, [⟨0xD6, 0, []⟩]⟩ =
        .error .notAResponse ∧
      SyncResponse.tryFrom ⟨1, nodeProfile, controller, .get, 1, [⟨0xD6, 0, []⟩]⟩ =
        .error .notAResponse :=
  c7_not_a_response _ (by decide) (by decide) (by decide)

/-- Claim C8: frame decode is total — every input yields a frame or an
error (the embedding is a total function, every read in the source
being guarded) — it never reads past the bytes it consumes, so a
successful decode is stable under appending arbitrary trailing bytes,
and a property declaring length 0 decodes as a valid empty-payload
property. -/
theorem c8_decode_total :
    (∀ (l extra : List Nat) (p : Packet),
      Packet.tryFrom l = .ok p → Packet.tryFrom (l ++ extra) = .ok p) ∧
    (∀ l : List Nat,
      (∃ p, Packet.tryFrom l = .ok p) ∨ (∃ e, Packet.tryFrom l = .error e)) ∧
    (∀ t1 t2 s0 s1 s2 d0 d1 d2 ev : Nat, ∀ esv : ESV, ∀ epc : Nat, ∀ rest : List Nat,
      ESV.fromByte ev = some esv →
      Packet.tryFrom (0x10 :: 0x81 :: t1 :: t2 :: s0 :: s1 :: s2 :: d0 :: d1 :: d2 ::
          ev :: 1 :: epc :: 0 :: rest) =
        .ok ⟨t1 * 256 + t2, ⟨s0, s1, s2⟩, ⟨d0, d1, d2⟩, esv, 1, [⟨epc, 0, []⟩]⟩) := by
  refine ⟨?_, ?_, ?_⟩
  · intro l extra p h
    rcases l with _ | ⟨a1, l⟩; · exact Except.noConfusion h
    rcases l with _ | ⟨a2, l⟩; · exact Except.noConfusion h
    rcases l with _ | ⟨a3, l⟩; · exact Except.noConfusion h
    rcases l with _ | ⟨a4, l⟩; · exact Except.noConfusion h
    rcases l with _ | ⟨a5, l⟩; · exact Except.noConfusion h
    rcases l with _ | ⟨a6, l⟩; · exact Except.noConfusion h
    rcases l with _ | ⟨a7, l⟩; · exact Except.noConfusion h
    rcases l with _ | ⟨a8, l⟩; · exact Except.noConfusion h
    rcases l with _ | ⟨a9, l⟩; · exact Except.noConfusion h
    rcases l with _ | ⟨a10, l⟩; · exact Except.noConfusion h
    rcases l with _ | ⟨a11, l⟩; · exact Except.noConfusion h
    rcases l with _ | ⟨a12, l⟩; · exact Except.noConfusion h
    simp only [List.cons_append]
    rw [tryFrom_cons] at h ⊢
    by_cases h1 : a1 = 0x10
    · rw [if_pos h1] at h ⊢
      by_cases h2 : a2 = 0x81
      · rw [if_pos h2] at h ⊢
        cases hesv : ESV.fromByte a11 with
        | none => rw [hesv] at h; exact Except.noConfusion h
        | some esv =>
          rw [hesv] at h
          cases hrp : readProps a12 l with
          | error e => rw [hrp] at h; exact Except.noConfusion h
          | ok ps =>
            rw [hrp] at h
            rw [readProps_append a12 l extra ps hrp]
            exact h
      · rw [if_neg h2] at h; exact Except.noConfusion h
    · rw [if_neg h1] at h; exact Except.noConfusion h
  · intro l
    rcases h : Packet.tryFrom l with e | p
    · exact Or.inr ⟨e, rfl⟩
    · exact Or.inl ⟨p, rfl⟩
  · intro t1 t2 s0 s1 s2 d0 d1 d2 ev esv epc rest hev
    have h1 : readProps 1 (epc :: 0 :: rest) = .ok [⟨epc, 0, []⟩] := by
      show (if rest.length < 0 then (.error .propertyTruncated : Except FrameError (List ElProp))
          else match readProps 0 (rest.drop 0) with
            | .ok ps => .ok (⟨epc, 0, rest.take 0⟩ :: ps)
            | .error e => .error e) = .ok [⟨epc, 0, []⟩]
      rw [if_neg (Nat.not_lt_zero _)]
      rfl
    rw [tryFrom_cons, if_pos rfl, if_pos rfl, hev, h1]

/-- Witness for C8: trailing-byte stability, totality and the
zero-length property, each at a concrete buffer. -/
theorem c8_decode_total_witness :
    Packet.tryFrom ([0x10, 0x81, 0, 1, 5, 0xFF, 1, 0x0E, 0xF0, 1, 0x62, 0] ++ [0xAB, 0xCD]) =
      .ok ⟨1, ⟨5, 0xFF, 1⟩, ⟨0x0E, 0xF0, 1⟩, .get, 0, []⟩ ∧
    ((∃ p, Packet.tryFrom [0x42] = .ok p) ∨ (∃ e, Packet.tryFrom [0x42] = .error e)) ∧
    Packet.tryFrom [0x10, 0x81, 0, 1, 5, 0xFF, 1, 0x0E, 0xF0, 1, 0x62, 1, 0x82, 0] =
      .ok ⟨1, ⟨5, 0xFF, 1⟩, ⟨0x0E, 0xF0, 1⟩, .get, 1, [⟨0x82, 0, []⟩]⟩ :=
  ⟨c8_decode_total.1 [0x10, 0x81, 0, 1, 5, 0xFF, 1, 0x0E, 0xF0, 1, 0x62, 0] [0xAB, 0xCD]
      ⟨1, ⟨5, 0xFF, 1⟩, ⟨0x0E, 0xF0, 1⟩, .get, 0, []⟩ rfl,
   c8_decode_total.2.1 [0x42],
   c8_decode_total.2.2 0 1 5 0xFF 1 0x0E 0xF0 1 0x62 ESV.get 0x82 [] rfl⟩

/-- Counterexample to claim C9 as stated: a frame with a
normal-response service code, destination equal to the controller
specifier and all four required properties (0x82, 0x9D, 0x9F, 0x9E)
present — but with empty payloads — is not accepted: the source panics
indexing the empty 0x82 payload. -/
theorem c9_empty_payloads_counterexample :
    SyncResponse.tryFrom ⟨1, ⟨0x01, 0x30, 0x01⟩, controller, .setRes, 4,
        [⟨0x82, 0, []⟩, ⟨0x9D, 0, []⟩, ⟨0x9F, 0, []⟩, ⟨0x9E, 0, []⟩]⟩ =
      .error .indexPanic :=
  rfl

/-- Claim C9, amended with the payload preconditions the source relies
on (0x82 payload at least 4 bytes, each map payload non-empty): the
Sync Response interpreter does not constrain the frame's source
specifier — for every value of the source specifier the frame is
accepted, and the result's responding object equals that source. -/
theorem c9_source_unconstrained_amended (p : Packet) (pr82 prA prG prS : ElProp)
    (a b c d : Nat) (e82 ap gp sp : List Nat)
    (h1 : p.isNormalResponse = true) (h2 : p.deoj = controller)
    (h3 : p.getProp 0x82 = some pr82) (h4 : pr82.edt = a :: b :: c :: d :: e82)
    (h5 : p.getProp 0x9D = some prA) (h6 : parse_property_map prA.edt = some ap)
    (h7 : p.getProp 0x9F = some prG) (h8 : parse_property_map prG.edt = some gp)
    (h9 : p.getProp 0x9E = some prS) (h10 : parse_property_map prS.edt = some sp) :
    ∀ s : EOJ,
      SyncResponse.tryFrom { p with seoj := s } = .ok ⟨s, ⟨a, b, c, d⟩, ap, gp, sp⟩ := by
  intro s
  obtain ⟨tid, seoj, deoj, esv, opc, props⟩ := p
  have hdeoj : deoj = controller := h2
  subst hdeoj
  have h1' : Packet.isNormalResponse ⟨tid, s, controller, esv, opc, props⟩ = true := h1
  have h3' : Packet.getProp ⟨tid, s, controller, esv, opc, props⟩ 0x82 = some pr82 := h3
  have h5' : Packet.getProp ⟨tid, s, controller, esv, opc, props⟩ 0x9D = some prA := h5
  have h7' : Packet.getProp ⟨tid, s, controller, esv, opc, props⟩ 0x9F = some prG := h7
  have h9' : Packet.getProp ⟨tid, s, controller, esv, opc, props⟩ 0x9E = some prS := h9
  simp [SyncResponse.tryFrom, h1', h3', h5', h7', h9', h4, h6, h8, h10]

/-- Witness for C9 (amended): a concrete Sync-Response-shaped frame
whose source specifier is the arbitrary value (0xAB, 0xCD, 0xEF). -/
theorem c9_source_unconstrained_amended_witness :
    SyncResponse.tryFrom ⟨1, ⟨0xAB, 0xCD, 0xEF⟩, controller, .getRes, 4,
        [⟨0x82, 4, [0, 0, 0x52, 0]⟩, ⟨0x9D, 2, [1, 0x80]⟩, ⟨0x9F, 2, [1, 0x81]⟩,
          ⟨0x9E, 2, [1, 0x82]⟩]⟩ =
      .ok ⟨⟨0xAB, 0xCD, 0xEF⟩, ⟨0, 0, 0x52, 0⟩, [0x80], [0x81], [0x82]⟩ :=
  c9_source_unconstrained_amended
    ⟨1, ⟨0x01, 0x30, 0x01⟩, controller, .getRes, 4,
      [⟨0x82, 4, [0, 0, 0x52, 0]⟩, ⟨0x9D, 2, [1, 0x80]⟩, ⟨0x9F, 2, [1, 0x81]⟩,
        ⟨0x9E, 2, [1, 0x82]⟩]⟩
    ⟨0x82, 4, [0, 0, 0x52, 0]⟩ ⟨0x9D, 2, [1, 0x80]⟩ ⟨0x9F, 2, [1, 0x81]⟩
    ⟨0x9E, 2, [1, 0x82]⟩ 0 0 0x52 0 [] [0x80] [0x81] [0x82]
    rfl rfl rfl rfl rfl rfl rfl rfl rfl rfl ⟨0xAB, 0xCD, 0xEF⟩

/-- Claim C10: both response interpreters are total — they return a
result or a returned error and never reach the modelled index panics —
on every frame whose referenced property payloads meet the minimum
lengths: for Discovery Response a non-empty 0xD6 payload, for Sync
Response a 0x82 payload of at least 4 bytes and non-empty 0x9D, 0x9F,
0x9E payloads. -/
theorem c10_interpreters_total :
    (∀ p : Packet,
      (∀ pr : ElProp, p.getProp 0xD6 = some pr → pr.edt ≠ []) →
      DiscoveryResponse.tryFrom p ≠ .error .indexPanic) ∧
    (∀ p : Packet,
      (∀ pr : ElProp, p.getProp 0x82 = some pr → 4 ≤ pr.edt.length) →
      (∀ pr : ElProp, p.getProp 0x9D = some pr → pr.edt ≠ []) →
      (∀ pr : ElProp, p.getProp 0x9F = some pr → pr.edt ≠ []) →
      (∀ pr : ElProp, p.getProp 0x9E = some pr → pr.edt ≠ []) →
      SyncResponse.tryFrom p ≠ .error .indexPanic) := by
  constructor
  · intro p hD6
    rw [DiscoveryResponse.tryFrom]
    by_cases h1 : p.isNormalResponse = false
    · rw [if_pos h1]; simp
    rw [if_neg h1]
    by_cases h2 : p.deoj ≠ controller
    · rw [if_pos h2]; simp
    rw [if_neg h2]
    by_cases h3 : p.seoj ≠ nodeProfile
    · rw [if_pos h3]; simp
    rw [if_neg h3]
    cases hD : p.getProp 0xD6 with
    | none => simp
    | some pr =>
      cases hedt : pr.edt with
      | nil => exact absurd hedt (hD6 pr hD)
      | cons b0 rest =>
        cases hch : chunks3 rest with
        | none => simp [hedt, hch]
        | some l => simp [hedt, hch]
  · intro p h82 h9D h9F h9E
    rw [SyncResponse.tryFrom]
    by_cases h1 : p.isNormalResponse = false
    · rw [if_pos h1]; simp
    rw [if_neg h1]
    by_cases h2 : p.deoj ≠ controller
    · rw [if_pos h2]; simp
    rw [if_neg h2]
    cases hA : p.getProp 0x82 with
    | none => simp
    | some pr82 =>
      cases hB : p.getProp 0x9D with
      | none => simp
      | some prA =>
        cases hC : p.getProp 0x9F with
        | none => simp
        | some prG =>
          cases hD : p.getProp 0x9E with
          | none => simp
          | some prS =>
            have hlen := h82 pr82 hA
            rcases hedt : pr82.edt with _ | ⟨a, _ | ⟨b, _ | ⟨c, _ | ⟨d, e82⟩⟩⟩⟩
            · rw [hedt] at hlen
              simp only [List.length_nil, List.length_cons] at hlen; omega
            · rw [hedt] at hlen
              simp only [List.length_nil, List.length_cons] at hlen; omega
            · rw [hedt] at hlen
              simp only [List.length_nil, List.length_cons] at hlen; omega
            · rw [hedt] at hlen
              simp only [List.length_nil, List.length_cons] at hlen; omega
            · obtain ⟨ba, ta, hba⟩ := List.exists_cons_of_ne_nil (h9D prA hB)
              obtain ⟨la, hla⟩ := parse_property_map_cons ba ta
              obtain ⟨bg, tg, hbg⟩ := List.exists_cons_of_ne_nil (h9F prG hC)
              obtain ⟨lg, hlg⟩ := parse_property_map_cons bg tg
              obtain ⟨bs, ts, hbs⟩ := List.exists_cons_of_ne_nil (h9E prS hD)
              obtain ⟨ls, hls⟩ := parse_property_map_cons bs ts
              simp [hedt, hba, hla, hbg, hlg, hbs, hls]

/-- Witness for C10: both interpreters at concrete well-shaped frames
(the discovery and sync frames of the source's own test suite). -/
theorem c10_interpreters_total_witness :
    DiscoveryResponse.tryFrom ⟨1, nodeProfile, controller, .getRes, 1,
        [⟨0xD6, 4, [0x02, 0x01, 0x30, 0x01]⟩]⟩ ≠ .error .indexPanic ∧
    SyncResponse.tryFrom ⟨1, ⟨0x01, 0x30, 0x01⟩, controller, .getRes, 4,
        [⟨0x82, 4, [0, 0, 0x52, 0]⟩, ⟨0x9D, 2, [1, 0x80]⟩, ⟨0x9F, 2, [1, 0x81]⟩,
          ⟨0x9E, 2, [1, 0x82]⟩]⟩ ≠ .error .indexPanic :=
  ⟨c10_interpreters_total.1 _
      (fun pr h => by rw [← Option.some.inj h]; decide),
   c10_interpreters_total.2 _
      (fun pr h => by rw [← Option.some.inj h]; decide)
      (fun pr h => by rw [← Option.some.inj h]; decide)
      (fun pr h => by rw [← Option.some.inj h]; decide)
      (fun pr h => by rw [← Option.some.inj h]; decide)⟩

end Elscan
